import Mathlib

/-!
Shallow embedding of the JMAP MCP server (`src/index.js`, the variant that
registers `get_mailboxes`, `search_emails` and `get_email_content`).

JavaScript values are modelled as follows: a string field that may be
`undefined`/`null` is `Option String` (with `some ""` a present empty
string, which JavaScript treats as falsy); an array field that may be
absent is `Option (List _)`; the truthiness test `if (x)` on a string is
`jsTruthyStr`; `x || d` on strings is `jsOr`.  Fallible asynchronous calls
are `Except String _`, where `Except.error` stands for a raised (thrown)
JavaScript exception carrying its payload.
-/

namespace JmapMcp

/-- JavaScript truthiness of an optional string: `undefined`, `null` and
the empty string are falsy. -/
def jsTruthyStr : Option String → Option String
  | some s => if s = "" then none else some s
  | none => none

/-- JavaScript `x || d` for an optional string `x` and default `d`. -/
def jsOr (v : Option String) (d : String) : String :=
  match v with
  | some s => if s = "" then d else s
  | none => d

/-- The input object of the `search_emails` tool (zod schema at
`src/index.js:236-251`): every field but `mailboxId` and `limit` is
optional. -/
structure SearchCriteria where
  mailboxId : String
  limit : Nat := 15
  excludeMailboxIds : Option (List String) := none
  receivedBefore : Option String := none
  receivedAfter : Option String := none
  hasKeyword : Option String := none
  notKeyword : Option String := none
  hasAttachment : Option Bool := none
  searchText : Option String := none
  searchFrom : Option String := none
  searchTo : Option String := none
  searchCc : Option String := none
  searchBcc : Option String := none
  searchSubject : Option String := none
  searchBody : Option String := none

/-- The JMAP `Email/query` filter object built by `search_emails`
(`src/index.js:277-316`): `inMailbox` always present, every other key
optional. -/
structure Filter where
  inMailbox : String
  inMailboxOtherThan : Option (List String) := none
  before : Option String := none
  after : Option String := none
  hasKeyword : Option String := none
  notKeyword : Option String := none
  hasAttachment : Option Bool := none
  text : Option String := none
  from_ : Option String := none
  to_ : Option String := none
  cc : Option String := none
  bcc : Option String := none
  subject : Option String := none
  body : Option String := none
deriving DecidableEq

/-- The filter construction of `search_emails` (`src/index.js:277-316`),
one conditional assignment per input field.  String fields are guarded by
JavaScript truthiness (`if (receivedBefore)` …), the array field by
`excludeMailboxIds && excludeMailboxIds.length > 0`, and the boolean field
by `typeof hasAttachment === 'boolean'`. -/
def buildFilter (c : SearchCriteria) : Filter :=
  { inMailbox := c.mailboxId
    inMailboxOtherThan :=
      match c.excludeMailboxIds with
      | some l => if l.length > 0 then some l else none
      | none => none
    before := jsTruthyStr c.receivedBefore
    after := jsTruthyStr c.receivedAfter
    hasKeyword := jsTruthyStr c.hasKeyword
    notKeyword := jsTruthyStr c.notKeyword
    hasAttachment := c.hasAttachment
    text := jsTruthyStr c.searchText
    from_ := jsTruthyStr c.searchFrom
    to_ := jsTruthyStr c.searchTo
    cc := jsTruthyStr c.searchCc
    bcc := jsTruthyStr c.searchBcc
    subject := jsTruthyStr c.searchSubject
    body := jsTruthyStr c.searchBody }

/-- A `SearchCriteria` whose `hasKeyword` field is supplied but holds the
empty string (a falsy value). -/
def criteriaEmptyKeyword : SearchCriteria :=
  { mailboxId := "mb1", limit := 15, hasKeyword := some "" }

/-- A JMAP `EmailBodyPart` as used by `get_email_content`: only the fields
the code reads (`src/index.js:408-418`). -/
structure BodyPart where
  blobId : Option String := none
  type : Option String := none
  name : Option String := none
deriving DecidableEq

/-- Outcome of one `jam.downloadBlob` call (`src/index.js:413-418`): a
successful response whose text is read, a response with `ok` false
(non-success HTTP status), or a thrown transport error. -/
inductive DownloadOutcome where
  | ok (text : String)
  | httpError (status : Nat) (statusText : String)
  | transportError (message : String)
deriving DecidableEq

/-- The sentinel initial value of `bodyContent` (`src/index.js:406`). -/
def noBodySentinel : String := "No body content found."

/-- `downloadBodyPartContent` (`src/index.js:408-429`), instrumented with
the list of blob ids for which a download request was issued.  A missing
part or a falsy `blobId` returns `null` without any request; a non-success
status or a thrown error is caught and returns `null` after one request.
`dl` is the external blob-download collaborator, indexed by blob id. -/
def downloadBodyPartContentTr (dl : String → DownloadOutcome) :
    Option BodyPart → Option String × List String
  | none => (none, [])
  | some bp =>
    match jsTruthyStr bp.blobId with
    | none => (none, [])
    | some bid =>
      match dl bid with
      | .ok t => (some t, [bid])
      | .httpError _ _ => (none, [bid])
      | .transportError _ => (none, [bid])

/-- The body-selection logic of `get_email_content`
(`src/index.js:406,431-447`), instrumented with the download trace:
prefer the first plain-text part, else the first HTML part (tagged),
else keep the sentinel. -/
def resolveBodyTr (dl : String → DownloadOutcome)
    (textBody htmlBody : Option (List BodyPart)) : String × List String :=
  match textBody with
  | some (p :: _) =>
    match downloadBodyPartContentTr dl (some p) with
    | (some t, tr) => (t, tr)
    | (none, tr) => (noBodySentinel, tr)
  | _ =>
    match htmlBody with
    | some (p :: _) =>
      match downloadBodyPartContentTr dl (some p) with
      | (some t, tr) => ("[HTML Body - may contain tags]\n" ++ t, tr)
      | (none, tr) => (noBodySentinel, tr)
    | _ => (noBodySentinel, [])

/-- The resolved body content alone (the value `bodyContent` holds at
`src/index.js:449`). -/
def resolveBody (dl : String → DownloadOutcome)
    (textBody htmlBody : Option (List BodyPart)) : String :=
  (resolveBodyTr dl textBody htmlBody).1

/-- A JMAP `EmailAddress` object: optional display name plus address. -/
structure Addr where
  name : Option String := none
  email : String
deriving DecidableEq

/-- One email record as the modelled JMAP server stores it; the union of
the properties the three tools request, plus `threadId` for thread
collapsing. -/
structure EmailRec where
  id : String
  threadId : String := ""
  mailboxIds : List String := []
  subject : Option String := none
  from_ : Option (List Addr) := none
  to_ : Option (List Addr) := none
  receivedAt : Option String := none
  sentAt : Option String := none
  preview : Option String := none
  textBody : Option (List BodyPart) := none
  htmlBody : Option (List BodyPart) := none
deriving DecidableEq

/-- One addressee as `get_email_content` renders it
(`src/index.js:452`): `f.name ? f.name <f.email> : f.email`. -/
def renderAddr (a : Addr) : String :=
  match jsTruthyStr a.name with
  | some n => n ++ " <" ++ a.email ++ ">"
  | none => a.email

/-- An addressee list as `get_email_content` renders it: a present array
(truthy in JavaScript even when empty) is mapped and joined with a comma,
an absent one becomes the placeholder. -/
def renderAddrList (l : Option (List Addr)) (placeholder : String) : String :=
  match l with
  | some addrs => String.intercalate ", " (addrs.map renderAddr)
  | none => placeholder

/-- The date line value `email.receivedAt || email.sentAt || '(Unknown
Date)'` (`src/index.js:452`). -/
def dateField (receivedAt sentAt : Option String) : String :=
  jsOr receivedAt (jsOr sentAt "(Unknown Date)")

/-- The template literal of `get_email_content` (`src/index.js:452`). -/
def formatEmail (e : EmailRec) (bodyContent : String) : String :=
  "Subject: " ++ jsOr e.subject "(No Subject)" ++
  "\nFrom: " ++ renderAddrList e.from_ "(Unknown Sender)" ++
  "\nTo: " ++ renderAddrList e.to_ "(Unknown Recipient)" ++
  "\nDate: " ++ dateField e.receivedAt e.sentAt ++
  "\n\n---\n\n" ++ bodyContent

/-- An email whose subject and received time are present but empty
strings, with a sent time present. -/
def emailFalsyFields : EmailRec :=
  { id := "m1", subject := some "", receivedAt := some "",
    sentAt := some "2024-05-01T10:00:00Z" }

/-- An email whose received time is a present empty string and whose sent
time is absent. -/
def emailFalsyDate : EmailRec :=
  { id := "m2", receivedAt := some "", sentAt := none }

/-- One JMAP `Thread` record: its id and its member email ids. -/
structure ThreadRec where
  id : String
  emailIds : List String := []
deriving DecidableEq

/-- One JMAP `Mailbox` record (only what `get_mailboxes` passes through). -/
structure MailboxRec where
  id : String
  name : String := ""
deriving DecidableEq

/-- The external JMAP server as the program observes it.  `filterEval` is
the server's evaluation of a submitted filter against an email (the mail
protocol itself is out of this repository's scope); `failAt` answers the
named method call with a protocol-level error payload, or `none` for
success. -/
structure ServerState where
  emails : List EmailRec := []
  threads : List ThreadRec := []
  mailboxes : List MailboxRec := []
  filterEval : Filter → EmailRec → Bool := fun _ _ => true
  failAt : String → Option String := fun _ => none

/-- The `receivedAt` sort key (absent mapped below every present value). -/
def recvKey (e : EmailRec) : String := e.receivedAt.getD ""

/-- Insertion into a received-time-descending list. -/
def insertDesc (e : EmailRec) : List EmailRec → List EmailRec
  | [] => [e]
  | x :: xs =>
    if compare (recvKey e) (recvKey x) = Ordering.lt then x :: insertDesc e xs
    else e :: x :: xs

/-- The server's received-time-descending sort (insertion sort). -/
def sortByReceivedDesc : List EmailRec → List EmailRec
  | [] => []
  | x :: xs => insertDesc x (sortByReceivedDesc xs)

/-- Thread collapsing: keep the first email (in sorted order) of each
thread, the thread's exemplar. -/
def collapseGo (seen : List String) : List EmailRec → List EmailRec
  | [] => []
  | e :: rest =>
    if e.threadId ∈ seen then collapseGo seen rest
    else e :: collapseGo (e.threadId :: seen) rest

/-- Thread collapsing from an empty seen set. -/
def collapseByThread (l : List EmailRec) : List EmailRec := collapseGo [] l

/-- JMAP `Email/query` as the server executes it: filter, sort (only the
`receivedAt` sort property is modelled), optionally collapse threads,
then apply `position` and `limit`.  Returns matching email ids. -/
def serverQuery (st : ServerState) (f : Filter) (sortProp : String)
    (isAscending : Bool) (position : Nat) (collapse : Bool) (lim : Nat) :
    List String :=
  let matching := st.emails.filter (st.filterEval f)
  let sorted :=
    if sortProp = "receivedAt" then
      (if isAscending then (sortByReceivedDesc matching).reverse
       else sortByReceivedDesc matching)
    else matching
  let collapsed := if collapse then collapseByThread sorted else sorted
  ((collapsed.map (fun e => e.id)).drop position).take lim

/-- JMAP `Email/get`: one record per requested id that exists. -/
def serverEmailGet (st : ServerState) (ids : List String) : List EmailRec :=
  ids.filterMap (fun i => st.emails.find? (fun e => e.id == i))

/-- JMAP `Thread/get`: one record per requested id that exists. -/
def serverThreadGet (st : ServerState) (ids : List String) : List ThreadRec :=
  ids.filterMap (fun i => st.threads.find? (fun t => t.id == i))

/-- The id argument of a drafted method call: literal values, or a forward
reference (`$ref`) into a named prior stage's future result at a fixed
path. -/
inductive IdsArg where
  | literal : List String → IdsArg
  | ref : String → String → IdsArg
deriving DecidableEq

/-- One drafted method call of a JMAP batch, as `jam.requestMany`'s
builder records it. -/
inductive Stage where
  | emailQuery (filter : Filter) (sortProp : String) (isAscending : Bool)
      (position : Nat) (collapseThreads : Bool) (lim : Nat)
  | emailGet (ids : IdsArg) (properties : List String)
  | threadGet (ids : IdsArg)
deriving DecidableEq

/-- The result of one executed method call. -/
inductive StageResult where
  | queryRes (ids : List String)
  | emailGetRes (list : List EmailRec)
  | threadGetRes (list : List ThreadRec)
deriving DecidableEq

/-- Look up a named prior stage result. -/
def envLookup (name : String) : List (String × StageResult) → Option StageResult
  | [] => none
  | (n, r) :: rest => if n = name then some r else envLookup name rest

/-- Flatten the member email ids of a thread list (the starred JSON
pointer segment maps over the list and concatenates). -/
def threadListEmailIds : List ThreadRec → List String
  | [] => []
  | t :: ts => t.emailIds ++ threadListEmailIds ts

/-- RFC 8620 result-reference resolution for the three fixed paths this
program uses: `/ids` on a query result, `/list/*/threadId` on an
`Email/get` result, `/list/*/emailIds` on a `Thread/get` result. -/
def resolvePath (path : String) : StageResult → Option (List String)
  | .queryRes ids => if path = "/ids" then some ids else none
  | .emailGetRes l =>
    if path = "/list/*/threadId" then some (l.map (fun e => e.threadId)) else none
  | .threadGetRes l =>
    if path = "/list/*/emailIds" then some (threadListEmailIds l) else none

/-- Resolve a stage's id argument against the prior results. -/
def resolveIds (env : List (String × StageResult)) : IdsArg → Option (List String)
  | .literal ids => some ids
  | .ref name path =>
    match envLookup name env with
    | some r => resolvePath path r
    | none => none

/-- Execute one method call against the server; `failAt` may answer it
with a protocol-level error. -/
def execStage (st : ServerState) (env : List (String × StageResult))
    (name : String) : Stage → Except String StageResult := fun stage =>
  match st.failAt name with
  | some e => .error e
  | none =>
    match stage with
    | .emailQuery f sp asc pos col lim =>
      .ok (.queryRes (serverQuery st f sp asc pos col lim))
    | .emailGet ids _props =>
      match resolveIds env ids with
      | some l => .ok (.emailGetRes (serverEmailGet st l))
      | none => .error "invalidResultReference"
    | .threadGet ids =>
      match resolveIds env ids with
      | some l => .ok (.threadGetRes (serverThreadGet st l))
      | none => .error "invalidResultReference"

/-- Execute a batch atomically in submission order, resolving references
against the results accumulated so far; the first protocol-level error
fails the whole batch. -/
def execBatch (st : ServerState) :
    List (String × Stage) → List (String × StageResult) →
    Except String (List (String × StageResult))
  | [], env => .ok env
  | (name, stage) :: rest, env =>
    match execStage st env name stage with
    | .error e => .error e
    | .ok r => execBatch st rest (env ++ [(name, r)])

/-- The four dependent method calls `search_emails` drafts inside
`jam.requestMany` (`src/index.js:318-355`). -/
def searchStages (f : Filter) (lim : Nat) : List (String × Stage) :=
  [("queryEmails", .emailQuery f "receivedAt" false 0 true lim),
   ("getThreadIds", .emailGet (.ref "queryEmails" "/ids") ["threadId"]),
   ("getThreadEmails", .threadGet (.ref "getThreadIds" "/list/*/threadId")),
   ("getEmailDetails", .emailGet (.ref "getThreadEmails" "/list/*/emailIds")
     ["id", "subject", "from", "receivedAt", "preview", "mailboxIds"])]

/-- The single `jam.requestMany` call of `search_emails`: the four stages
submitted as one atomic batch. -/
def execSearchBatch (st : ServerState) (f : Filter) (lim : Nat) :
    Except String (List (String × StageResult)) :=
  execBatch st (searchStages f lim) []

/-- Stage 1 of the pipeline: the exemplar email ids the query produces. -/
def searchQueryIds (st : ServerState) (f : Filter) (lim : Nat) : List String :=
  serverQuery st f "receivedAt" false 0 true lim

/-- Stage 2 of the pipeline: the exemplar email records. -/
def searchExemplars (st : ServerState) (f : Filter) (lim : Nat) : List EmailRec :=
  serverEmailGet st (searchQueryIds st f lim)

/-- The thread ids of the exemplar records, as `/list/*/threadId` resolves
them. -/
def searchThreadIds (st : ServerState) (f : Filter) (lim : Nat) : List String :=
  (searchExemplars st f lim).map (fun e => e.threadId)

/-- Stage 3 of the pipeline: the thread records. -/
def searchThreads (st : ServerState) (f : Filter) (lim : Nat) : List ThreadRec :=
  serverThreadGet st (searchThreadIds st f lim)

/-- Stage 4 of the pipeline: the detail records of every member email. -/
def searchDetails (st : ServerState) (f : Filter) (lim : Nat) : List EmailRec :=
  serverEmailGet st (threadListEmailIds (searchThreads st f lim))

/-- The search resolver's value: the final detail stage's list
(`results.getEmailDetails.list`, `src/index.js:360`), or the first
protocol-level error. -/
def searchCore (st : ServerState) (c : SearchCriteria) :
    Except String (List EmailRec) :=
  match execSearchBatch st (buildFilter c) c.limit with
  | .error e => .error e
  | .ok env =>
    match envLookup "getEmailDetails" env with
    | some (.emailGetRes l) => .ok l
    | _ => .error "unknownMethod"

/-- A tool result: one text content block plus the error flag. -/
structure ToolOutput where
  text : String
  isError : Bool := false
deriving DecidableEq

/-- Stand-in for `JSON.stringify(list, null, 2)` on the detail list; its
exact shape is not part of any claim. -/
def renderEmailList (l : List EmailRec) : String :=
  String.intercalate "\n" (l.map (fun e => e.id))

/-- Stand-in for `JSON.stringify(mailboxes, null, 2)`. -/
def renderMailboxes (l : List MailboxRec) : String :=
  String.intercalate "\n" (l.map (fun m => m.id ++ " " ++ m.name))

/-- The `search_emails` handler (`src/index.js:253-373`): the whole body
sits in a `try`, and the `catch` returns the tagged error payload.  The
handler is total: it never re-raises and never retries. -/
def search_emails (st : ServerState) (c : SearchCriteria) : ToolOutput :=
  match searchCore st c with
  | .ok l => { text := renderEmailList l, isError := false }
  | .error e => { text := "Error fetching emails: " ++ e, isError := true }

/-- The `get_mailboxes` handler (`src/index.js:217-227`): a direct
pass-through with no `try`/`catch`, so an upstream failure of
`Mailbox/get` propagates as a raised exception (`Except.error`). -/
def get_mailboxes (st : ServerState) : Except String ToolOutput :=
  match st.failAt "Mailbox/get" with
  | some e => .error e
  | none => .ok { text := renderMailboxes st.mailboxes, isError := false }

/-- The `get_email_content` handler (`src/index.js:385-455`), instrumented
with the blob-download trace.  There is no `try`/`catch` around the
`Email/get` call, so its upstream failure propagates as a raised
exception; a missing id returns a tagged error payload and performs no
body resolution; otherwise the body is resolved and the record
formatted. -/
def get_email_content (st : ServerState) (dl : String → DownloadOutcome)
    (emailId : String) : Except String (ToolOutput × List String) :=
  match st.failAt "Email/get" with
  | some e => .error e
  | none =>
    match serverEmailGet st [emailId] with
    | [] =>
      .ok ({ text := "Error: Email with ID " ++ emailId ++ " not found.",
             isError := true }, [])
    | e :: _ =>
      let r := resolveBodyTr dl e.textBody e.htmlBody
      .ok ({ text := formatEmail e r.1, isError := false }, r.2)

/-- An email of the concrete witness account: the newer member of thread
`t1`. -/
def emailW1 : EmailRec :=
  { id := "e1", threadId := "t1", mailboxIds := ["inbox1"],
    receivedAt := some "2024-01-02T00:00:00Z" }

/-- An email of the concrete witness account: the older member of thread
`t1`. -/
def emailW2 : EmailRec :=
  { id := "e2", threadId := "t1", mailboxIds := ["inbox1"],
    receivedAt := some "2024-01-01T00:00:00Z" }

/-- The single thread of the witness account, holding both emails. -/
def threadW : ThreadRec := { id := "t1", emailIds := ["e1", "e2"] }

/-- A concrete healthy server: one thread of two emails, every filter
matching, no failures. -/
def serverW : ServerState :=
  { emails := [emailW1, emailW2], threads := [threadW] }

/-- A concrete search: limit one thread. -/
def criteriaW : SearchCriteria := { mailboxId := "inbox1", limit := 1 }

/-- A server whose `Mailbox/get` call fails with a network error. -/
def serverMailboxFail : ServerState :=
  { failAt := fun n => if n = "Mailbox/get" then some "networkError" else none }

/-- The largest member count among a list of threads. -/
def maxThreadSize (ts : List ThreadRec) : Nat :=
  (ts.map (fun t => t.emailIds.length)).foldr Nat.max 0

/-- The collapsed, sorted, filtered list underlying every search query. -/
def collapsedMatches (st : ServerState) (f : Filter) : List EmailRec :=
  collapseByThread (sortByReceivedDesc (st.emails.filter (st.filterEval f)))

/-- C2, counterexample: the claim says a supplied-but-falsy field (for
example an empty string) still produces its predicate key.  It does not:
`hasKeyword` supplied as `""` is dropped by the truthiness guard
`if (hasKeyword)`, so the built filter has no `hasKeyword` key.  The same
happens for a supplied empty `excludeMailboxIds` array. -/
theorem filter_drops_supplied_falsy_field :
    criteriaEmptyKeyword.hasKeyword = some "" ∧
    (buildFilter criteriaEmptyKeyword).hasKeyword = none ∧
    ({ mailboxId := "mb1", excludeMailboxIds := some [] } :
        SearchCriteria).excludeMailboxIds = some [] ∧
    (buildFilter { mailboxId := "mb1", excludeMailboxIds := some [] }).inMailboxOtherThan
      = none := by
  refine ⟨rfl, rfl, rfl, rfl⟩

/-- C2, amended: a predicate key appears in the built filter iff the
corresponding input field was supplied *with a truthy value* (a non-empty
string; for `excludeMailboxIds` a non-empty array).  The boolean field
`hasAttachment` is the exception the claim already states correctly: it is
included exactly when explicitly set, with `false` and `true` both
meaningful and distinct from unset. -/
theorem filter_key_iff_supplied_truthy (c : SearchCriteria) :
    ((buildFilter c).inMailbox = c.mailboxId) ∧
    (∀ l, (buildFilter c).inMailboxOtherThan = some l ↔
      c.excludeMailboxIds = some l ∧ l ≠ []) ∧
    (∀ s, (buildFilter c).before = some s ↔ c.receivedBefore = some s ∧ s ≠ "") ∧
    (∀ s, (buildFilter c).after = some s ↔ c.receivedAfter = some s ∧ s ≠ "") ∧
    (∀ s, (buildFilter c).hasKeyword = some s ↔ c.hasKeyword = some s ∧ s ≠ "") ∧
    (∀ s, (buildFilter c).notKeyword = some s ↔ c.notKeyword = some s ∧ s ≠ "") ∧
    (∀ b, (buildFilter c).hasAttachment = some b ↔ c.hasAttachment = some b) ∧
    (∀ s, (buildFilter c).text = some s ↔ c.searchText = some s ∧ s ≠ "") ∧
    (∀ s, (buildFilter c).from_ = some s ↔ c.searchFrom = some s ∧ s ≠ "") ∧
    (∀ s, (buildFilter c).to_ = some s ↔ c.searchTo = some s ∧ s ≠ "") ∧
    (∀ s, (buildFilter c).cc = some s ↔ c.searchCc = some s ∧ s ≠ "") ∧
    (∀ s, (buildFilter c).bcc = some s ↔ c.searchBcc = some s ∧ s ≠ "") ∧
    (∀ s, (buildFilter c).subject = some s ↔ c.searchSubject = some s ∧ s ≠ "") ∧
    (∀ s, (buildFilter c).body = some s ↔ c.searchBody = some s ∧ s ≠ "") := by
  have hstr : ∀ (v : Option String) (s : String),
      jsTruthyStr v = some s ↔ v = some s ∧ s ≠ "" := by
    intro v s
    cases v with
    | none => simp [jsTruthyStr]
    | some t =>
      by_cases h : t = "" <;> simp [jsTruthyStr, h] <;>
        rintro rfl <;> simp_all
  refine ⟨rfl, ?_, hstr _, hstr _, hstr _, hstr _, ?_, hstr _, hstr _, hstr _,
    hstr _, hstr _, hstr _, hstr _⟩
  · intro l
    cases h : c.excludeMailboxIds with
    | none => simp [buildFilter, h]
    | some l' =>
      cases l' with
      | nil => simp [buildFilter, h]
      | cons a t =>
        simp only [buildFilter, h, List.length_cons]
        constructor
        · intro hl
          simp at hl
          exact ⟨by rw [hl], by rw [← hl]; simp⟩
        · rintro ⟨hl, _⟩
          simp at hl
          simp [hl]
  · intro b
    simp [buildFilter]

/-- C4: body resolution follows the claimed decision procedure.  When the
plain-text part list is non-empty its first part alone is fetched (the
trace never touches the HTML rendition); the HTML rendition, tagged with
the HTML prefix, is used only when the plain-text list is empty or absent;
a missing content-reference id, a non-success status or a transport error
yields the sentinel without any further retrieval attempt; and with both
lists empty or absent the result is exactly the sentinel with no retrieval
at all. -/
theorem body_resolution_policy (dl : String → DownloadOutcome)
    (tb hb : Option (List BodyPart)) :
    (∀ p rest, tb = some (p :: rest) →
      (jsTruthyStr p.blobId = none →
        resolveBodyTr dl tb hb = (noBodySentinel, [])) ∧
      (∀ bid, jsTruthyStr p.blobId = some bid →
        (∀ t, dl bid = .ok t → resolveBodyTr dl tb hb = (t, [bid])) ∧
        (∀ s st, dl bid = .httpError s st →
          resolveBodyTr dl tb hb = (noBodySentinel, [bid])) ∧
        (∀ m, dl bid = .transportError m →
          resolveBodyTr dl tb hb = (noBodySentinel, [bid])))) ∧
    ((tb = none ∨ tb = some []) → ∀ p rest, hb = some (p :: rest) →
      (jsTruthyStr p.blobId = none →
        resolveBodyTr dl tb hb = (noBodySentinel, [])) ∧
      (∀ bid, jsTruthyStr p.blobId = some bid →
        (∀ t, dl bid = .ok t →
          resolveBodyTr dl tb hb = ("[HTML Body - may contain tags]\n" ++ t, [bid])) ∧
        (∀ s st, dl bid = .httpError s st →
          resolveBodyTr dl tb hb = (noBodySentinel, [bid])) ∧
        (∀ m, dl bid = .transportError m →
          resolveBodyTr dl tb hb = (noBodySentinel, [bid])))) ∧
    ((tb = none ∨ tb = some []) → (hb = none ∨ hb = some []) →
      resolveBodyTr dl tb hb = (noBodySentinel, [])) := by
  refine ⟨?_, ?_, ?_⟩
  · rintro p rest rfl
    refine ⟨fun hb0 => ?_, fun bid hbid => ⟨fun t ht => ?_, fun s st hs => ?_, fun m hm => ?_⟩⟩ <;>
      simp_all [resolveBodyTr, downloadBodyPartContentTr]
  · rintro (rfl | rfl) p rest rfl <;>
      refine ⟨fun hb0 => ?_, fun bid hbid => ⟨fun t ht => ?_, fun s st hs => ?_, fun m hm => ?_⟩⟩ <;>
      simp_all [resolveBodyTr, downloadBodyPartContentTr]
  · rintro (rfl | rfl) (rfl | rfl) <;> simp [resolveBodyTr]

/-- C9: the formatted output is a single text block with `Subject`,
`From`, `To` and `Date` lines, a separator, then the body; a missing
subject renders as `(No Subject)`, a missing sender list as `(Unknown
Sender)`, a missing recipient list as `(Unknown Recipient)`, a missing
date as `(Unknown Date)` with received time preferred over sent time;
multiple addressees are joined with `", "`; an addressee with a display
name renders as `Name <address>` and one without as just the address. -/
theorem email_content_format (e : EmailRec) (bc : String) :
    (formatEmail e bc =
      "Subject: " ++ jsOr e.subject "(No Subject)" ++
      "\nFrom: " ++ renderAddrList e.from_ "(Unknown Sender)" ++
      "\nTo: " ++ renderAddrList e.to_ "(Unknown Recipient)" ++
      "\nDate: " ++ dateField e.receivedAt e.sentAt ++
      "\n\n---\n\n" ++ bc) ∧
    (e.subject = none → jsOr e.subject "(No Subject)" = "(No Subject)") ∧
    (e.from_ = none → renderAddrList e.from_ "(Unknown Sender)" = "(Unknown Sender)") ∧
    (e.to_ = none → renderAddrList e.to_ "(Unknown Recipient)" = "(Unknown Recipient)") ∧
    (e.receivedAt = none → e.sentAt = none →
      dateField e.receivedAt e.sentAt = "(Unknown Date)") ∧
    (∀ d, e.receivedAt = some d → d ≠ "" → dateField e.receivedAt e.sentAt = d) ∧
    (∀ l, e.from_ = some l →
      renderAddrList e.from_ "(Unknown Sender)" =
        String.intercalate ", " (l.map renderAddr)) ∧
    (∀ n a, n ≠ "" → renderAddr { name := some n, email := a } = n ++ " <" ++ a ++ ">") ∧
    (∀ a, renderAddr { name := none, email := a } = a) := by
  refine ⟨rfl, ?_, ?_, ?_, ?_, ?_, ?_, ?_, ?_⟩
  · intro h; simp [jsOr, h]
  · intro h; simp [renderAddrList, h]
  · intro h; simp [renderAddrList, h]
  · intro h1 h2; simp [dateField, jsOr, h1, h2]
  · intro d h1 h2; simp [dateField, jsOr, h1, h2]
  · intro l h; simp [renderAddrList, h]
  · intro n a h; simp [renderAddr, jsTruthyStr, h]
  · intro a; simp [renderAddr, jsTruthyStr]

/-- C10: placeholder substitution triggers on any falsy field value, not
only an absent one: a present-but-empty subject renders `(No Subject)`,
and a present-but-empty `receivedAt` falls through to `sentAt`, and then
to `(Unknown Date)` when `sentAt` is also absent. -/
theorem formatter_placeholder_on_falsy :
    formatEmail emailFalsyFields "B" =
      "Subject: (No Subject)\nFrom: (Unknown Sender)\nTo: (Unknown Recipient)\nDate: 2024-05-01T10:00:00Z\n\n---\n\nB" ∧
    formatEmail emailFalsyDate "B" =
      "Subject: (No Subject)\nFrom: (Unknown Sender)\nTo: (Unknown Recipient)\nDate: (Unknown Date)\n\n---\n\nB" :=
  ⟨rfl, rfl⟩

/-- A successful batch execution is exactly the four-stage pipeline: the
query ids feed the thread-id fetch through `/ids`, its thread ids feed the
thread fetch through `/list/*/threadId`, and the flattened member ids feed
the detail fetch through `/list/*/emailIds`. -/
theorem execSearchBatch_ok (st : ServerState) (f : Filter) (lim : Nat)
    (env : List (String × StageResult))
    (h : execSearchBatch st f lim = .ok env) :
    env = [("queryEmails", .queryRes (searchQueryIds st f lim)),
           ("getThreadIds", .emailGetRes (searchExemplars st f lim)),
           ("getThreadEmails", .threadGetRes (searchThreads st f lim)),
           ("getEmailDetails", .emailGetRes (searchDetails st f lim))] := by
  cases h1 : st.failAt "queryEmails" with
  | some e =>
    simp [execSearchBatch, searchStages, execBatch, execStage, h1] at h
  | none =>
  cases h2 : st.failAt "getThreadIds" with
  | some e =>
    simp [execSearchBatch, searchStages, execBatch, execStage, h1, h2] at h
  | none =>
  cases h3 : st.failAt "getThreadEmails" with
  | some e =>
    simp [execSearchBatch, searchStages, execBatch, execStage, resolveIds,
      envLookup, resolvePath, h1, h2, h3] at h
  | none =>
  cases h4 : st.failAt "getEmailDetails" with
  | some e =>
    simp [execSearchBatch, searchStages, execBatch, execStage, resolveIds,
      envLookup, resolvePath, h1, h2, h3, h4] at h
  | none =>
    simp [execSearchBatch, searchStages, execBatch, execStage, resolveIds,
      envLookup, resolvePath, h1, h2, h3, h4, searchQueryIds, searchExemplars,
      searchThreadIds, searchThreads, searchDetails] at h
    exact h.symm

/-- C1: every search builds exactly the four stages — an `Email/query`
sorted by `receivedAt` descending with thread collapsing and cap `limit`,
an `Email/get` of `threadId` for the queried ids, a `Thread/get` for those
thread ids, and an `Email/get` of the summary fields for the member ids —
each later stage's ids a forward reference at its fixed path into the
prior stage's result, all submitted as one atomic batch; and the resolver
returns exactly the final detail stage's list in the order that stage
produced it. -/
theorem search_four_stage_batch (st : ServerState) (c : SearchCriteria)
    (r : List EmailRec) (h : searchCore st c = .ok r) :
    ((searchStages (buildFilter c) c.limit).map Prod.snd =
      [.emailQuery (buildFilter c) "receivedAt" false 0 true c.limit,
       .emailGet (.ref "queryEmails" "/ids") ["threadId"],
       .threadGet (.ref "getThreadIds" "/list/*/threadId"),
       .emailGet (.ref "getThreadEmails" "/list/*/emailIds")
         ["id", "subject", "from", "receivedAt", "preview", "mailboxIds"]]) ∧
    r = searchDetails st (buildFilter c) c.limit ∧
    searchDetails st (buildFilter c) c.limit =
      serverEmailGet st (threadListEmailIds (searchThreads st (buildFilter c) c.limit)) ∧
    searchThreads st (buildFilter c) c.limit =
      serverThreadGet st ((searchExemplars st (buildFilter c) c.limit).map (fun e => e.threadId)) ∧
    searchExemplars st (buildFilter c) c.limit =
      serverEmailGet st (searchQueryIds st (buildFilter c) c.limit) ∧
    searchQueryIds st (buildFilter c) c.limit =
      serverQuery st (buildFilter c) "receivedAt" false 0 true c.limit := by
  refine ⟨rfl, ?_, rfl, rfl, rfl, rfl⟩
  unfold searchCore at h
  cases hb : execSearchBatch st (buildFilter c) c.limit with
  | error e => rw [hb] at h; exact absurd h (by simp)
  | ok env =>
    rw [hb] at h
    rw [execSearchBatch_ok st (buildFilter c) c.limit env hb] at h
    simpa [envLookup] using h.symm

/-- C1, witness: on the concrete account the search succeeds — one thread
within the limit yields both of its member emails — and the result is the
detail stage's list. -/
theorem search_four_stage_batch_witness :
    searchCore serverW criteriaW = .ok [emailW1, emailW2] ∧
    [emailW1, emailW2] = searchDetails serverW (buildFilter criteriaW) criteriaW.limit :=
  ⟨rfl, (search_four_stage_batch serverW criteriaW [emailW1, emailW2] rfl).2.1⟩

/-- C5: a protocol-level error in any of the four stages fails the whole
search: the handler returns the single tagged error payload carrying the
upstream error — never partial data — and the one batch execution alone
determines the outcome (there is no retry path). -/
theorem search_error_propagation (st : ServerState) (c : SearchCriteria) :
    (∀ e, searchCore st c = .error e →
      search_emails st c = { text := "Error fetching emails: " ++ e, isError := true }) ∧
    (∀ name, name ∈ ["queryEmails", "getThreadIds", "getThreadEmails", "getEmailDetails"] →
      ∀ e, st.failAt name = some e → ∃ e2, searchCore st c = .error e2) := by
  constructor
  · intro e he
    simp [search_emails, he]
  · intro name hname e he
    unfold searchCore
    cases hb : execSearchBatch st (buildFilter c) c.limit with
    | error e2 => exact ⟨e2, by simp⟩
    | ok env =>
      exfalso
      have henv := execSearchBatch_ok st (buildFilter c) c.limit env hb
      cases h1 : st.failAt "queryEmails" with
      | some e1 =>
        simp [execSearchBatch, searchStages, execBatch, execStage, h1] at hb
      | none =>
      cases h2 : st.failAt "getThreadIds" with
      | some e1 =>
        simp [execSearchBatch, searchStages, execBatch, execStage, h1, h2] at hb
      | none =>
      cases h3 : st.failAt "getThreadEmails" with
      | some e1 =>
        simp [execSearchBatch, searchStages, execBatch, execStage, resolveIds,
          envLookup, resolvePath, h1, h2, h3] at hb
      | none =>
      cases h4 : st.failAt "getEmailDetails" with
      | some e1 =>
        simp [execSearchBatch, searchStages, execBatch, execStage, resolveIds,
          envLookup, resolvePath, h1, h2, h3, h4] at hb
      | none =>
        fin_cases hname <;> simp_all

/-- C6, counterexample: the claim says every tool surfaces every upstream
error as a tagged payload, never throwing past the tool boundary.  But the
`get_mailboxes` handler has no `try`/`catch`: an upstream `Mailbox/get`
failure is raised past the boundary (`Except.error`), and no tagged
`ToolOutput` payload is returned. -/
theorem mailbox_error_thrown_past_boundary :
    get_mailboxes serverMailboxFail = .error "networkError" ∧
    ¬ ∃ out : ToolOutput, get_mailboxes serverMailboxFail = .ok out := by
  refine ⟨rfl, ?_⟩
  rintro ⟨out, hout⟩
  rw [show get_mailboxes serverMailboxFail = .error "networkError" from rfl] at hout
  exact Except.noConfusion hout

/-- C6, amended: only `search_emails` catches upstream errors and surfaces
them as tagged error payloads (its handler is total and marks the payload
with the upstream error); `get_email_content` surfaces the missing-id case
as a tagged payload, but upstream protocol errors in `get_mailboxes` and
in `get_email_content`'s fetch are raised past the tool boundary rather
than returned as payloads. -/
theorem error_surfacing_per_tool (st : ServerState) :
    (∀ (c : SearchCriteria) (e : String), searchCore st c = .error e →
      search_emails st c = { text := "Error fetching emails: " ++ e, isError := true }) ∧
    (∀ e, st.failAt "Mailbox/get" = some e → get_mailboxes st = .error e) ∧
    (∀ dl i e, st.failAt "Email/get" = some e →
      get_email_content st dl i = .error e) := by
  refine ⟨?_, ?_, ?_⟩
  · intro c e he
    simp [search_emails, he]
  · intro e he
    simp [get_mailboxes, he]
  · intro dl i e he
    simp [get_email_content, he]

/-- C7: a missing email id yields a tagged error payload naming the id —
not a raised exception — and the handler performs no body resolution or
content retrieval (the download trace is empty). -/
theorem missing_email_id_payload (st : ServerState)
    (dl : String → DownloadOutcome) (emailId : String)
    (hok : st.failAt "Email/get" = none)
    (hmiss : st.emails.find? (fun e => e.id == emailId) = none) :
    get_email_content st dl emailId =
      .ok ({ text := "Error: Email with ID " ++ emailId ++ " not found.",
             isError := true }, []) := by
  simp [get_email_content, hok, serverEmailGet, hmiss]

/-- C7, witness: on the concrete healthy account, asking for the id
`nope` returns the tagged not-found payload with an empty download
trace. -/
theorem missing_email_id_payload_witness :
    get_email_content serverW (fun _ => .transportError "x") "nope" =
      .ok ({ text := "Error: Email with ID nope not found.", isError := true }, []) :=
  missing_email_id_payload serverW (fun _ => .transportError "x") "nope" rfl rfl

/-- Membership in an insertion is membership in the inserted element or
the original list. -/
theorem mem_insertDesc (x e : EmailRec) (l : List EmailRec)
    (h : x ∈ insertDesc e l) : x = e ∨ x ∈ l := by
  induction l with
  | nil => simpa [insertDesc] using h
  | cons y ys ih =>
    simp only [insertDesc] at h
    split at h
    · rcases List.mem_cons.mp h with rfl | h2
      · exact Or.inr (List.mem_cons_self _ _)
      · rcases ih h2 with rfl | h3
        · exact Or.inl rfl
        · exact Or.inr (List.mem_cons_of_mem _ h3)
    · rcases List.mem_cons.mp h with rfl | h2
      · exact Or.inl rfl
      · exact Or.inr h2

/-- The sort only reorders: membership is preserved. -/
theorem mem_sortByReceivedDesc (x : EmailRec) (l : List EmailRec)
    (h : x ∈ sortByReceivedDesc l) : x ∈ l := by
  induction l with
  | nil => simp [sortByReceivedDesc] at h
  | cons y ys ih =>
    simp only [sortByReceivedDesc] at h
    rcases mem_insertDesc x y _ h with rfl | h2
    · exact List.mem_cons_self _ _
    · exact List.mem_cons_of_mem _ (ih h2)

/-- Collapsing selects a subset of the input. -/
theorem mem_collapseGo (x : EmailRec) (l : List EmailRec)
    (seen : List String) (h : x ∈ collapseGo seen l) : x ∈ l := by
  induction l generalizing seen with
  | nil => simp [collapseGo] at h
  | cons e rest ih =>
    simp only [collapseGo] at h
    split at h
    · exact List.mem_cons_of_mem _ (ih seen h)
    · rcases List.mem_cons.mp h with rfl | h2
      · exact List.mem_cons_self _ _
      · exact List.mem_cons_of_mem _ (ih _ h2)

/-- The thread ids of a collapsed list are distinct and avoid the seen
set. -/
theorem collapseGo_threadId_nodup (l : List EmailRec) : ∀ seen : List String,
    ((collapseGo seen l).map (fun e => e.threadId)).Nodup ∧
    ∀ t ∈ (collapseGo seen l).map (fun e => e.threadId), t ∉ seen := by
  induction l with
  | nil => intro seen; simp [collapseGo]
  | cons e rest ih =>
    intro seen
    by_cases hc : e.threadId ∈ seen
    · simpa [collapseGo, hc] using ih seen
    · obtain ⟨ihn, ihs⟩ := ih (e.threadId :: seen)
      refine ⟨?_, ?_⟩
      · simp only [collapseGo, if_neg hc, List.map_cons, List.nodup_cons]
        exact ⟨fun hmem => (ihs e.threadId hmem) (List.mem_cons_self _ _), ihn⟩
      · intro t ht
        simp only [collapseGo, if_neg hc, List.map_cons, List.mem_cons] at ht
        rcases ht with rfl | ht2
        · exact hc
        · exact fun hseen => ihs t ht2 (List.mem_cons_of_mem _ hseen)

/-- Exemplars have pairwise-distinct thread ids. -/
theorem collapseByThread_threadId_nodup (l : List EmailRec) :
    ((collapseByThread l).map (fun e => e.threadId)).Nodup :=
  (collapseGo_threadId_nodup l []).1

/-- With globally distinct email ids, looking an email's id up finds that
email. -/
theorem find?_id_of_mem {l : List EmailRec} {e : EmailRec}
    (hnd : (l.map (fun x => x.id)).Nodup) (he : e ∈ l) :
    l.find? (fun x => x.id == e.id) = some e := by
  induction l with
  | nil => cases he
  | cons x xs ih =>
    simp only [List.map_cons, List.nodup_cons] at hnd
    rcases List.mem_cons.mp he with rfl | hmem
    · simp [List.find?_cons]
    · have hne : (x.id == e.id) = false := by
        rw [beq_eq_false_iff_ne]
        intro hEq
        exact hnd.1 (hEq ▸ List.mem_map_of_mem (fun y => y.id) hmem)
      rw [List.find?_cons, hne]
      exact ih hnd.2 hmem

/-- Fetching by the ids of known records returns exactly those records. -/
theorem serverEmailGet_map_id (st : ServerState) (es : List EmailRec)
    (h : ∀ e ∈ es, st.emails.find? (fun x => x.id == e.id) = some e) :
    serverEmailGet st (es.map (fun e => e.id)) = es := by
  induction es with
  | nil => rfl
  | cons e rest ih =>
    have h1 := h e (List.mem_cons_self e rest)
    have h2 := ih (fun x hx => h x (List.mem_cons_of_mem e hx))
    simp only [serverEmailGet, List.map_cons, List.filterMap_cons, h1] at *
    rw [h2]

/-- The query stage returns the ids of the first `lim` exemplars. -/
theorem searchQueryIds_eq (st : ServerState) (f : Filter) (lim : Nat) :
    searchQueryIds st f lim = ((collapsedMatches st f).take lim).map (fun e => e.id) := by
  simp [searchQueryIds, serverQuery, collapsedMatches, List.map_take]

/-- With globally distinct email ids, the thread-id stage returns exactly
the first `lim` exemplars. -/
theorem searchExemplars_eq (st : ServerState) (f : Filter) (lim : Nat)
    (hids : (st.emails.map (fun e => e.id)).Nodup) :
    searchExemplars st f lim = (collapsedMatches st f).take lim := by
  rw [searchExemplars, searchQueryIds_eq]
  apply serverEmailGet_map_id
  intro e he
  apply find?_id_of_mem hids
  have h1 : e ∈ collapsedMatches st f := List.take_subset _ _ he
  have h2 := mem_collapseGo e _ [] h1
  have h3 := mem_sortByReceivedDesc e _ h2
  exact List.mem_of_mem_filter h3

/-- C3: in every successful search batch, the id list the thread stage
resolves through `/list/*/threadId` — the ids for which the `Thread/get`
is performed — is exactly the exemplars' thread-id list, and it is
duplicate-free: no thread id is fetched more than once (the collapsed
query yields at most one exemplar per thread).  Requires the server
invariant that email ids are unique. -/
theorem thread_fetch_distinct (st : ServerState) (c : SearchCriteria)
    (hids : (st.emails.map (fun e => e.id)).Nodup)
    (env : List (String × StageResult))
    (hb : execSearchBatch st (buildFilter c) c.limit = .ok env) :
    (searchThreadIds st (buildFilter c) c.limit).Nodup ∧
    resolveIds env (IdsArg.ref "getThreadIds" "/list/*/threadId") =
      some (searchThreadIds st (buildFilter c) c.limit) := by
  constructor
  · rw [searchThreadIds, searchExemplars_eq st (buildFilter c) c.limit hids,
      List.map_take]
    exact (List.take_sublist _ _).nodup (collapseByThread_threadId_nodup _)
  · rw [execSearchBatch_ok st _ _ env hb]
    simp [resolveIds, envLookup, resolvePath, searchThreadIds]

/-- C3, witness: on the concrete account (both emails share thread `t1`,
ids unique) the successful batch resolves a duplicate-free thread-id
list. -/
theorem thread_fetch_distinct_witness :
    (searchThreadIds serverW (buildFilter criteriaW) criteriaW.limit).Nodup :=
  (thread_fetch_distinct serverW criteriaW (by decide) _ rfl).1

/-- The flattened member ids number at most threads times the largest
thread. -/
theorem threadListEmailIds_length_le (ts : List ThreadRec) :
    (threadListEmailIds ts).length ≤ ts.length * maxThreadSize ts := by
  induction ts with
  | nil => simp [threadListEmailIds]
  | cons t rest ih =>
    have hmax1 : t.emailIds.length ≤ maxThreadSize (t :: rest) :=
      Nat.le_max_left _ _
    have hmax2 : maxThreadSize rest ≤ maxThreadSize (t :: rest) :=
      Nat.le_max_right _ _
    have hrest : (threadListEmailIds rest).length ≤
        rest.length * maxThreadSize (t :: rest) :=
      le_trans ih (Nat.mul_le_mul_left _ hmax2)
    calc (threadListEmailIds (t :: rest)).length
        = t.emailIds.length + (threadListEmailIds rest).length := by
          simp [threadListEmailIds]
      _ ≤ maxThreadSize (t :: rest) + rest.length * maxThreadSize (t :: rest) :=
          Nat.add_le_add hmax1 hrest
      _ = (t :: rest).length * maxThreadSize (t :: rest) := by
          simp [List.length_cons, Nat.succ_mul, Nat.add_comm]

/-- `Email/get` and `Thread/get` return at most one record per id. -/
theorem length_filterMap_le_ids {α β : Type} (f : α → Option β) (l : List α) :
    (l.filterMap f).length ≤ l.length := by
  induction l with
  | nil => simp
  | cons x xs ih =>
    rw [List.filterMap_cons]
    cases f x with
    | none => exact le_trans ih (Nat.le_succ _)
    | some b => simpa using ih

/-- C8: in every successful search execution, the number of detail-stage
records never exceeds the requested limit times the largest thread among
the threads the batch returned: the limit bounds threads, not raw
emails. -/
theorem search_result_bounded (st : ServerState) (c : SearchCriteria)
    (env : List (String × StageResult)) (r : List EmailRec) (ts : List ThreadRec)
    (hb : execSearchBatch st (buildFilter c) c.limit = .ok env)
    (hr : envLookup "getEmailDetails" env = some (.emailGetRes r))
    (hts : envLookup "getThreadEmails" env = some (.threadGetRes ts)) :
    r.length ≤ c.limit * maxThreadSize ts := by
  have henv := execSearchBatch_ok st (buildFilter c) c.limit env hb
  rw [henv] at hr hts
  simp [envLookup] at hr hts
  subst hr hts
  have h1 : (searchDetails st (buildFilter c) c.limit).length ≤
      (threadListEmailIds (searchThreads st (buildFilter c) c.limit)).length :=
    length_filterMap_le_ids _ _
  have h2 := threadListEmailIds_length_le (searchThreads st (buildFilter c) c.limit)
  have h3 : (searchThreads st (buildFilter c) c.limit).length ≤
      (searchThreadIds st (buildFilter c) c.limit).length :=
    length_filterMap_le_ids _ _
  have h4 : (searchThreadIds st (buildFilter c) c.limit).length ≤
      (searchQueryIds st (buildFilter c) c.limit).length := by
    rw [searchThreadIds, List.length_map]
    exact length_filterMap_le_ids _ _
  have h5 : (searchQueryIds st (buildFilter c) c.limit).length ≤ c.limit := by
    rw [searchQueryIds_eq, List.length_map]
    exact le_trans (List.length_take_le _ _) (le_refl _)
  have h6 : (searchThreads st (buildFilter c) c.limit).length ≤ c.limit :=
    le_trans h3 (le_trans h4 h5)
  exact le_trans h1 (le_trans h2 (Nat.mul_le_mul_right _ h6))

/-- C8, witness: on the concrete account, limit one with a two-email
thread gives two summaries, within `1 * 2`. -/
theorem search_result_bounded_witness :
    ([emailW1, emailW2] : List EmailRec).length ≤
      criteriaW.limit * maxThreadSize [threadW] :=
  search_result_bounded serverW criteriaW _ [emailW1, emailW2] [threadW] rfl rfl rfl

end JmapMcp
